import Mathlib

set_option linter.unusedVariables false

/-!
Verification of the HHVM PPC64 JIT back-end port (unique stubs, back-end
operation table, relocation, smashable call sites, and the eh_frame CIE
writer) against its natural-language specification.

The development shallowly embeds the relevant C++ routines:

* `decRefHelper` embeds the decision logic of `emitDecRefHelper`
  (unique-stubs-ppc64.cpp): the shared out-of-line local-release routine.
* `unrolledCode` / `execFL` / `seqRelease` embed the code emitted by
  `emitFreeLocalsHelpers` and its reference semantics.
* `endCatchHelper` embeds the control flow emitted by `emitEndCatchHelper`.
* `functionEnterHelper` embeds the instruction sequence emitted by
  `emitFunctionEnterHelper`, at the level of registers and memory.
* `BackEnd.*` / `isSmashable` embed the PPC64 `jit::BackEnd` operation
  table from back-end-ppc64.cpp.
* `freeLocalsSizeCheckPasses` embeds the conditional size assertion at the
  end of `emitFreeLocalsHelpers`.
* `Ppc64.relocate`, the smashable-site byte protocol, and `writeCIE` are
  modelled from the specification, since only their declarations (or the
  documenting header comments) appear in the available sources.

Machine integers are modelled as `Int`/`Nat`; bytes are `Nat` values kept
below 256 by construction.
-/

namespace HhvmJit

/-! ## Reference counting: the shared local-release routine

Embedding of `emitDecRefHelper` (unique-stubs-ppc64.cpp lines 120-157).
The routine receives the address of a TypedValue; the vasm it emits is

    load tv[m_data] -> data
    cmplim {1, data[FAST_REFCOUNT_OFFSET], sf}       -- flags of (refcount - 1)
    ifThen CC_NL:                                    -- refcount >= 1 (signed)
      ifThen CC_NE:                                  -- refcount != 1
        declm data[FAST_REFCOUNT_OFFSET]; ret        -- decrement and return
      callm lookupDestructor(type); syncpoint        -- refcount == 1: release
    ret                                              -- static value: no-op
-/

/-- A TypedValue as the release routine sees it: its data type tag and the
refcount word of the pointed-to heap object. -/
structure TypedValue where
  ty : Int
  rc : Int
deriving DecidableEq, Repr

/-- Observable effect of one invocation of the shared release routine on a
single TypedValue: the refcount afterwards, the type whose destructor was
invoked (if any), and whether a syncpoint (indirect fixup) was recorded. -/
structure DecRefEffect where
  rcAfter : Int
  destructorOf : Option Int
  syncpointRecorded : Bool
deriving DecidableEq, Repr

/-- The decision logic of `emitDecRefHelper`: compare the refcount against 1
with a signed compare; not-less means the value is refcounted, not-equal (on
the same flags) means the refcount exceeds 1 and is merely decremented;
otherwise (refcount exactly 1) the type-indexed destructor is called and a
syncpoint is recorded; a non-refcounted (static) value is left untouched. -/
def decRefHelper (tv : TypedValue) : DecRefEffect :=
  if 1 ≤ tv.rc then
    if tv.rc ≠ 1 then
      { rcAfter := tv.rc - 1, destructorOf := none, syncpointRecorded := false }
    else
      { rcAfter := tv.rc, destructorOf := some tv.ty, syncpointRecorded := true }
  else
    { rcAfter := tv.rc, destructorOf := none, syncpointRecorded := false }

/-! ## Back-end operation table for the PPC64 variant

Embedding of `ppc64::BackEnd` from back-end-ppc64.cpp.  Every virtual
member of this variant's operation table has the body `not_implemented();`,
except the free function `ppc64::isSmashable`, whose body is `return false;`.
An invocation either aborts the process or returns a value. -/

/-- Outcome of invoking a back-end operation: either the process aborts, or
the call returns normally with a value. -/
inductive CallResult (α : Type) where
  | abort : CallResult α
  | ok : α → CallResult α
deriving DecidableEq, Repr

/-- Modelled from the spec: the body of the `not_implemented()` macro is not
among the available sources; per the specification an operation unimplemented
for the active architecture aborts the process immediately rather than
returning. -/
def not_implemented {α : Type} : CallResult α := CallResult.abort

/-- Body of `ppc64::BackEnd::abi`. -/
def BackEnd.abi : CallResult Unit := not_implemented

/-- Body of `ppc64::BackEnd::cacheLineSize`. -/
def BackEnd.cacheLineSize : CallResult Nat := not_implemented

/-- Body of `ppc64::BackEnd::rSp`. -/
def BackEnd.rSp : CallResult Nat := not_implemented

/-- Body of `ppc64::BackEnd::rVmSp`. -/
def BackEnd.rVmSp : CallResult Nat := not_implemented

/-- Body of `ppc64::BackEnd::rVmFp`. -/
def BackEnd.rVmFp : CallResult Nat := not_implemented

/-- Body of `ppc64::BackEnd::rVmTl`. -/
def BackEnd.rVmTl : CallResult Nat := not_implemented

/-- Body of `ppc64::BackEnd::emitServiceReqWork`. -/
def BackEnd.emitServiceReqWork (cb start flags spOff req : Nat)
    (argv : List Nat) : CallResult Nat := not_implemented

/-- Body of `ppc64::BackEnd::reusableStubSize`. -/
def BackEnd.reusableStubSize : CallResult Nat := not_implemented

/-- Body of `ppc64::BackEnd::emitInterpReq`. -/
def BackEnd.emitInterpReq (code sk spOff : Nat) : CallResult Unit :=
  not_implemented

/-- Body of `ppc64::BackEnd::funcPrologueHasGuard`. -/
def BackEnd.funcPrologueHasGuard (prologue func : Nat) : CallResult Bool :=
  not_implemented

/-- Body of `ppc64::BackEnd::funcPrologueToGuard`. -/
def BackEnd.funcPrologueToGuard (prologue func : Nat) : CallResult Nat :=
  not_implemented

/-- Body of `ppc64::BackEnd::emitFuncPrologue`. -/
def BackEnd.emitFuncPrologue (transID func argc start : Nat) : CallResult Nat :=
  not_implemented

/-- Body of `ppc64::BackEnd::emitCallArrayPrologue`. -/
def BackEnd.emitCallArrayPrologue (func : Nat) (dvs : List Nat) :
    CallResult Nat := not_implemented

/-- Body of `ppc64::BackEnd::funcPrologueSmashGuard`. -/
def BackEnd.funcPrologueSmashGuard (prologue func : Nat) : CallResult Unit :=
  not_implemented

/-- Body of `ppc64::BackEnd::smashJmp`. -/
def BackEnd.smashJmp (jmpAddr newDest : Nat) : CallResult Unit :=
  not_implemented

/-- Body of `ppc64::BackEnd::smashCall`. -/
def BackEnd.smashCall (callAddr newDest : Nat) : CallResult Unit :=
  not_implemented

/-- Body of `ppc64::BackEnd::smashJcc`. -/
def BackEnd.smashJcc (jccAddr newDest : Nat) : CallResult Unit :=
  not_implemented

/-- Body of `ppc64::BackEnd::emitSmashableJump`. -/
def BackEnd.emitSmashableJump (cb dest cc : Nat) : CallResult Unit :=
  not_implemented

/-- Body of `ppc64::BackEnd::emitSmashableCall`. -/
def BackEnd.emitSmashableCall (cb dest : Nat) : CallResult Unit :=
  not_implemented

/-- Body of `ppc64::BackEnd::smashableCallFromReturn`. -/
def BackEnd.smashableCallFromReturn (returnAddr : Nat) : CallResult Nat :=
  not_implemented

/-- Body of `ppc64::BackEnd::jmpTarget`. -/
def BackEnd.jmpTarget (jmp : Nat) : CallResult Nat := not_implemented

/-- Body of `ppc64::BackEnd::jccTarget`. -/
def BackEnd.jccTarget (jmp : Nat) : CallResult Nat := not_implemented

/-- Body of `ppc64::BackEnd::jccCondCode`. -/
def BackEnd.jccCondCode (jmp : Nat) : CallResult Nat := not_implemented

/-- Body of `ppc64::BackEnd::callTarget`. -/
def BackEnd.callTarget (call : Nat) : CallResult Nat := not_implemented

/-- Body of the private `ppc64::BackEnd::do_isSmashable`. -/
def BackEnd.do_isSmashable (addr nBytes offset : Nat) : CallResult Bool :=
  not_implemented

/-- Body of the private `ppc64::BackEnd::do_moveToAlign`. -/
def BackEnd.do_moveToAlign (cb flags : Nat) : CallResult Unit :=
  not_implemented

/-- Body of the private `ppc64::BackEnd::do_prepareForSmash`. -/
def BackEnd.do_prepareForSmash (cb nBytes offset : Nat) : CallResult Unit :=
  not_implemented

/-- Body of the free function `ppc64::isSmashable` (back-end-ppc64.cpp lines
207-209): it unconditionally returns `false`, for every frontier address,
byte count and offset. -/
def isSmashable (frontier nBytes offset : Nat) : CallResult Bool :=
  CallResult.ok false

/-- Body of the free function `ppc64::prepareForSmashImpl`. -/
def prepareForSmashImpl (cb nBytes offset : Nat) : CallResult Unit :=
  not_implemented

/-- Body of the free function `ppc64::smashJmp`. -/
def smashJmpFree (jmpAddr newDest : Nat) : CallResult Unit := not_implemented

/-- Body of the free function `ppc64::smashCall`. -/
def smashCallFree (callAddr newDest : Nat) : CallResult Unit :=
  not_implemented

/-! ## Size budget of the free-locals helpers

Embedding of the assertion at the end of `emitFreeLocalsHelpers`
(unique-stubs-ppc64.cpp lines 218-222):

    #if defined(PPC64_PERFORMANCE)
      always_assert(Stats::enabled() ||
                    (cb.frontier() - release <= 4 * cache_line_size()));
    #endif

`emittedSize` stands for `cb.frontier() - release`, the distance from the
shared release routine to the frontier after all entry points are emitted. -/

/-- Whether emission of the free-locals helpers completes (the fatal
assertion does not fire).  The size check exists only in builds defining
`PPC64_PERFORMANCE`, and even there it is short-circuited whenever stats
collection is enabled. -/
def freeLocalsSizeCheckPasses (perfBuild statsEnabled : Bool)
    (emittedSize cacheLine : Nat) : Bool :=
  if perfBuild then statsEnabled || decide (emittedSize ≤ 4 * cacheLine)
  else true

/-! ## The free-locals helpers

Embedding of the code emitted by `emitFreeLocalsHelpers`
(unique-stubs-ppc64.cpp lines 159-225).  The emitted region is, in order:

* the shared release routine (`emitDecRefHelper`, embedded above);
* the looping entry point `freeManyLocalsHelper`, which computes
  `last = rvmfp + localOffset(kNumFreeLocalsHelpers - 1)` and then runs a
  do-while loop whose body is `decref_local; next_local`, repeating while
  `local != last`, falling through into the unrolled entries;
* for `i = kNumFreeLocalsHelpers - 1` down to `0`, the unrolled entry
  `freeLocalsHelpers[i]`, whose body is `decref_local` followed, when
  `i != 0`, by `next_local`, each falling through into the next entry;
* a single shared `ret` instruction at the end.

`decref_local` loads the local's type tag, compares it against
`KindOfRefCountThreshold`, and calls the shared release routine when the
type is strictly greater; `next_local` advances the local pointer by
`sizeof(TypedValue)` bytes.  The threshold value lives in a header outside
the available sources, so it is a parameter `th` of the semantics. -/

/-- Size in bytes of a TypedValue slot (`sizeof(TypedValue)`), the amount
`next_local` adds to the local pointer. -/
def tvSize : Nat := 16

/-- Frame memory: typed values indexed by byte address. -/
def Frame : Type := Nat → TypedValue

/-- State threaded through the free-locals code: the frame memory and the
list of destructor invocations performed so far, each recorded as the slot
address paired with the type whose destructor ran. -/
structure FLState where
  frame : Frame
  destructorCalls : List (Nat × Int)

/-- One `decref_local`: load the type tag of the local at address `p`; when
it exceeds the threshold `th`, call the shared release routine on the slot
(updating its refcount and recording any destructor invocation); otherwise
do nothing. -/
def releaseLocal (th : Int) (s : FLState) (p : Nat) : FLState :=
  let tv := s.frame p
  if th < tv.ty then
    let e := decRefHelper tv
    { frame := fun q => if q = p then { tv with rc := e.rcAfter } else s.frame q
      destructorCalls := s.destructorCalls ++
        (match e.destructorOf with
         | some t => [(p, t)]
         | none => []) }
  else s

/-- Instructions of the emitted free-locals region, abstracted to the three
operations that affect the observable state. -/
inductive FLInstr where
  | decref
  | advance
  | ret
deriving DecidableEq, Repr

/-- The unrolled code emitted by the loop `for i = K-1 downto 0`: the entry
point of `freeLocalsHelpers[i]` is the head of `unrolledCode i`, and each
entry falls through into the next.  Entry `0` performs a `decref_local` with
no trailing `next_local`. -/
def unrolledCode : Nat → List FLInstr
  | 0 => [FLInstr.decref]
  | i + 1 => FLInstr.decref :: FLInstr.advance :: unrolledCode i

/-- The whole emitted stub region past the release routine and the loop,
entered at `freeLocalsHelpers[K-1]`: the unrolled entries followed by the
single shared `ret`. -/
def unrolledProgram (K : Nat) : List FLInstr :=
  unrolledCode (K - 1) ++ [FLInstr.ret]

/-- Linear executor for the emitted region.  Runs instructions in order,
stopping at `ret`; it returns the final local pointer and state together
with the instruction list at which execution stopped (so that convergence
on the one shared `ret` can be stated). -/
def execFL (th : Int) : List FLInstr → Nat × FLState →
    (Nat × FLState) × List FLInstr
  | [], s => (s, [])
  | FLInstr.decref :: rest, (p, st) => execFL th rest (p, releaseLocal th st p)
  | FLInstr.advance :: rest, (p, st) => execFL th rest (p + tvSize, st)
  | FLInstr.ret :: rest, s => (s, FLInstr.ret :: rest)

/-- Reference semantics: invoke the single-local release routine `k` times
in sequence on `k` consecutive local slots starting at `p`. -/
def seqRelease (th : Int) : Nat → Nat → FLState → FLState
  | 0, _, st => st
  | k + 1, p, st => seqRelease th k (p + tvSize) (releaseLocal th st p)

/-- The do-while loop body of `freeManyLocalsHelper`, iterated `n` times:
each iteration is `decref_local; next_local`.  The loop repeats while
`local != last`; `n` is the resulting iteration count (at least 1, since the
loop is a do-while). -/
def loopRelease (th : Int) : Nat → Nat × FLState → Nat × FLState
  | 0, s => s
  | n + 1, (p, st) => loopRelease th n (p + tvSize, releaseLocal th st p)

/-- The looping entry point `freeManyLocalsHelper`: run the do-while loop
for its `n` iterations, then fall through into the unrolled entries and the
shared `ret`. -/
def freeManyLocalsEntry (th : Int) (K n : Nat) (s : Nat × FLState) :
    (Nat × FLState) × List FLInstr :=
  execFL th (unrolledProgram K) (loopRelease th n s)

/-! ## The end-catch / unwind-resume stub

Embedding of the code emitted by `emitEndCatchHelper`
(unique-stubs-ppc64.cpp lines 240-287).  The stub body is

    cmpqim {0, rvmtl[unwinderDebuggerReturnSPOff], sf1}
    jcc NE -> debuggerReturn
    copy rvmfp -> rarg(0); call tc_unwind_resume; copy r4 -> rvmfp
    testq r3, r3 -> sf2
    jcc Z -> resumeCPPUnwind
    jmpr r3                                  -- jump to the catch trace

    debuggerReturn:
      load rvmtl[udrspo] -> rvmsp; storeqi 0 -> rvmtl[udrspo]
      svcreq::emit_persistent REQ_POST_DEBUGGER_RET

    resumeCPPUnwind:
      storebi VMRegState::CLEAN -> tl_regState
      load rvmtl[unwinderExnOff] -> rarg(0); call _Unwind_Resume
-/

/-- Thread and VM state consumed by the end-catch stub: the thread-local
debugger-return stack offset (`udrspo`), the VM frame and stack pointers,
and the propagating exception object stored by the unwinder. -/
structure EndCatchState where
  udrspo : Int
  rvmfp : Int
  rvmsp : Int
  unwinderExn : Int
deriving DecidableEq, Repr

/-- How one invocation of the end-catch stub terminates. -/
inductive EndCatchExit where
  | serviceReqPostDebuggerRet
  | nativeUnwindResume (exn : Int)
  | jumpToCatchTrace (trace : Int)
deriving DecidableEq, Repr

/-- Observable result of one invocation of the end-catch stub: the
arguments of every call it made to the host resume routine
`tc_unwind_resume`, the final VM registers, the stored debugger-return
offset afterwards, whether `tl_regState` was set to CLEAN, and the exit. -/
structure EndCatchResult where
  tcUnwindResumeArgs : List Int
  rvmsp : Int
  rvmfp : Int
  udrspo : Int
  regStateSetClean : Bool
  exit : EndCatchExit
deriving DecidableEq, Repr

/-- The control flow emitted by `emitEndCatchHelper`, as a function of the
incoming state and of the host routine `tc_unwind_resume`, which maps the
current frame pointer to the pair (catch-trace address in `r3`, corrected
frame pointer in `r4`). -/
def endCatchHelper (resume : Int → Int × Int) (s : EndCatchState) :
    EndCatchResult :=
  if s.udrspo ≠ 0 then
    { tcUnwindResumeArgs := []
      rvmsp := s.udrspo
      rvmfp := s.rvmfp
      udrspo := 0
      regStateSetClean := false
      exit := EndCatchExit.serviceReqPostDebuggerRet }
  else
    let r := resume s.rvmfp
    if r.1 = 0 then
      { tcUnwindResumeArgs := [s.rvmfp]
        rvmsp := s.rvmsp
        rvmfp := r.2
        udrspo := s.udrspo
        regStateSetClean := true
        exit := EndCatchExit.nativeUnwindResume s.unwinderExn }
    else
      { tcUnwindResumeArgs := [s.rvmfp]
        rvmsp := s.rvmsp
        rvmfp := r.2
        udrspo := s.udrspo
        regStateSetClean := false
        exit := EndCatchExit.jumpToCatchTrace r.1 }

/-- Number of host calls (in the sense of the specification: the
post-debugger-return service request and `tc_unwind_resume`) performed by
one invocation of the end-catch stub. -/
def endCatchHostCallCount (r : EndCatchResult) : Nat :=
  r.tcUnwindResumeArgs.length +
    (match r.exit with
     | EndCatchExit.serviceReqPostDebuggerRet => 1
     | _ => 0)

/-! ## The function-enter trampoline

Embedding of the instruction sequence emitted by `emitFunctionEnterHelper`
(unique-stubs-ppc64.cpp lines 69-105), at the level of PPC64 registers and
memory:

    mflr  rfuncln                -- save the link register
    std   rfuncln, 16(rsp)       -- ... into the caller frame
    stdu  rsp, -80(rsp)          -- push an 80-byte frame, store back chain
    bcctrl -> EventHook::onFunctionCall(frame, nargs)  -- hook call
    cmpdi rret, 0
    beq   l
      ld    rsp, 0(rsp)          -- intercept path (hook returned nonzero)
      addi  rsp, rsp, 80
      ld    rfuncln, 16(rsp)
      mtctr rfuncln; bcctr       -- jump to the loaded continuation
    l:                           -- fall-through path (hook returned zero)
      ld    rsp, 0(rsp)
      addi  rsp, rsp, 80

On PPC64, `rret` and `rarg(0)` are both `r3`; the hook receives the frame
pointer in `r3` and the argument count in `r4`, exactly as the stub's caller
left them, and its return value comes back in `r3`. -/

/-- Machine state at entry to the function-enter trampoline: the stack
pointer, the link register (the stub's return address), the scratch
register `rfuncln`, the two argument registers, and memory as a map from
byte addresses to 64-bit words. -/
structure FEHMachine where
  rsp : Int
  lr : Int
  rfuncln : Int
  r3 : Int
  r4 : Int
  mem : Int → Int

/-- Observable result of one invocation of the trampoline: the argument
pairs of every hook call made, whether the hook signalled intercept, the
address the stub jumped to when it did, and the final stack pointer. -/
structure FEHResult where
  hookCalls : List (Int × Int)
  intercepted : Bool
  jumpTarget : Option Int
  rspFinal : Int

/-- Single write to the 64-bit word at address `a`. -/
def memUpd (m : Int → Int) (a v : Int) : Int → Int :=
  fun x => if x = a then v else m x

/-- The instruction sequence of `emitFunctionEnterHelper`, as a function of
the entry state and of the host hook `(frame, nargs) -> intercept?`. -/
def functionEnterHelper (hook : Int → Int → Int) (m : FEHMachine) :
    FEHResult :=
  let rfuncln1 := m.lr
  let mem1 := memUpd m.mem (m.rsp + 16) rfuncln1
  let mem2 := memUpd mem1 (m.rsp - 80) m.rsp
  let rsp1 := m.rsp - 80
  let rret := hook m.r3 m.r4
  if rret = 0 then
    let rsp2 := mem2 rsp1
    let rsp3 := rsp2 + 80
    { hookCalls := [(m.r3, m.r4)]
      intercepted := false
      jumpTarget := none
      rspFinal := rsp3 }
  else
    let rsp2 := mem2 rsp1
    let rsp3 := rsp2 + 80
    let tgt := mem2 (rsp3 + 16)
    { hookCalls := [(m.r3, m.r4)]
      intercepted := true
      jumpTarget := some tgt
      rspFinal := rsp3 }

/-! ## The relocation engine

Only the declaration of `ppc64::relocate` appears in the available sources
(relocation-ppc64.h lines 25-31); the implementation file is absent. -/

/-- Modelled from the spec: a relocation record, which "maps an original
address range to a destination range plus the fixups that must be
rewritten".  `ppc64::relocate`'s implementation is not among the available
sources.  The record carries the source range `[srcStart, srcEnd)` and the
destination base address. -/
structure RelocationRecord where
  srcStart : Nat
  srcEnd : Nat
  destStart : Nat
deriving DecidableEq, Repr

/-- Destination interval of a record: it covers as many bytes as the source
interval. -/
def RelocationRecord.destEnd (rel : RelocationRecord) : Nat :=
  rel.destStart + (rel.srcEnd - rel.srcStart)

/-- A record is well formed when it describes an actual move: the
destination range is disjoint from the source range (the region is moved to
fresh memory, on either side). -/
def RelocationRecord.WellFormed (rel : RelocationRecord) : Prop :=
  rel.srcEnd ≤ rel.destStart ∨ rel.destEnd ≤ rel.srcStart

/-- Modelled from the spec: rewrite one recorded address.  An address that
falls inside the moved source range is translated to its destination
counterpart; any other address is left unchanged. -/
def adjustedAddress (rel : RelocationRecord) (a : Nat) : Nat :=
  if rel.srcStart ≤ a ∧ a < rel.srcEnd then rel.destStart + (a - rel.srcStart)
  else a

/-- Modelled from the spec: `ppc64::relocate` applied to the recorded
address-sensitive values of a code region, here abstracted as the list of
addresses recorded in the region's fixup table. -/
def Ppc64.relocate (rel : RelocationRecord) (region : List Nat) : List Nat :=
  region.map (adjustedAddress rel)

/-! ## The smashable call-site protocol

Modelled from the spec: the PPC64 sources implement none of the smashable
operations (every `ppc64::BackEnd` smash/emit/read-back member aborts, and
no other architecture's implementation is among the available sources).
The protocol of spec section 4.3 is modelled at the byte level: a smashable
jump / conditional-jump / call site is a fixed opcode byte sequence (which,
for the conditional form, includes the condition code) followed by one
naturally aligned 8-byte little-endian operand holding the target; a smash
rewrites only the operand field; the read-back operations decode the
operand. -/

/-- Little-endian byte decomposition of `n` into `w` bytes. -/
def leBytes : Nat → Nat → List Nat
  | 0, _ => []
  | w + 1, n => n % 256 :: leBytes w (n / 256)

/-- Value of a little-endian byte list. -/
def leVal : List Nat → Nat
  | [] => 0
  | b :: rest => b + 256 * leVal rest

/-- Construct a smashable site at emission time: the fixed opcode bytes
followed by the 8-byte target operand. -/
def emitSmashableSite (op : List Nat) (dest : Nat) : List Nat :=
  op ++ leBytes 8 dest

/-- Smash the site: overwrite the trailing 8-byte operand with the new
destination, leaving the opcode bytes untouched. -/
def smashSite (site : List Nat) (newDest : Nat) : List Nat :=
  site.take (site.length - 8) ++ leBytes 8 newDest

/-- Read back the current target of a site whose opcode occupies `opLen`
bytes (`jmpTarget` / `jccTarget` / `callTarget`). -/
def siteTarget (opLen : Nat) (site : List Nat) : Nat :=
  leVal (site.drop opLen)

/-- A byte sequence decodes as a valid smashable site for opcode `op`: it
starts with exactly the opcode bytes and is followed by exactly one 8-byte
operand. -/
def ValidSmashableSite (op : List Nat) (site : List Nat) : Prop :=
  site.take op.length = op ∧ site.length = op.length + 8

/-! ## The eh_frame CIE writer

Only the header of `EHFrameWriter` is among the available sources
(eh-frame.h); `begin_cie`/`end_cie` are modelled from the spec and from the
header's documenting comment (eh-frame.h lines 109-128), which fixes the
fields: length automatic, CIE id 0, version 1, augmentation string
`"zPR"` when a personality routine is supplied and `"zR"` otherwise, code
alignment 1, data alignment -8, return register as supplied, and all
pointer encodings `DW_EH_PE_absptr`. -/

/-- ULEB128 encoding of a natural number. -/
def uleb (n : Nat) : List Nat :=
  if h : n < 128 then [n]
  else (n % 128 + 128) :: uleb (n / 128)
termination_by n
decreasing_by exact Nat.div_lt_self (by omega) (by omega)

/-- ULEB128 decoding: the decoded value together with the remaining bytes,
or `none` on truncated input. -/
def ulebDecode : List Nat → Option (Nat × List Nat)
  | [] => none
  | b :: rest =>
    if b < 128 then some (b, rest)
    else
      match ulebDecode rest with
      | some (v, rest') => some (b - 128 + 128 * v, rest')
      | none => none

/-- SLEB128 decoding: the decoded value together with the remaining bytes.
The final byte (high bit clear) is sign-extended from bit 6. -/
def slebDecode : List Nat → Option (Int × List Nat)
  | [] => none
  | b :: rest =>
    if b < 128 then
      some (if b < 64 then ((b : Int), rest) else ((b : Int) - 128, rest))
    else
      match slebDecode rest with
      | some (v, rest') => some (((b - 128 : Nat) : Int) + 128 * v, rest')
      | none => none

/-- The absolute-pointer encoding `DW_EH_PE_absptr`. -/
def dwEhPeAbsptr : Nat := 0x00

/-- Byte codes of the NUL-terminated augmentation string `"zR"`. -/
def augStringZR : List Nat := [0x7A, 0x52, 0x00]

/-- Byte codes of the NUL-terminated augmentation string `"zPR"`. -/
def augStringZPR : List Nat := [0x7A, 0x50, 0x52, 0x00]

/-- Modelled from the spec: the CIE augmentation data.  With a personality
routine it holds the personality pointer encoding (`DW_EH_PE_absptr`), the
absolute personality pointer, and the FDE pointer encoding
(`DW_EH_PE_absptr`); without one it holds just the FDE pointer encoding. -/
def cieAugData (personality : Option Nat) : List Nat :=
  match personality with
  | some p => dwEhPeAbsptr :: (leBytes 8 p ++ [dwEhPeAbsptr])
  | none => [dwEhPeAbsptr]

/-- Modelled from the spec: the CIE record body written between `begin_cie`
and `end_cie` (the part covered by the length field): CIE id 0, version 1,
the NUL-terminated augmentation string, ULEB code alignment factor 1, SLEB
data alignment factor -8 (the single byte 0x78), the ULEB return-address
register, and the length-prefixed augmentation data. -/
def cieBody (rip : Nat) (personality : Option Nat) : List Nat :=
  leBytes 4 0
    ++ [1]
    ++ (if personality.isSome then augStringZPR else augStringZR)
    ++ uleb 1
    ++ [0x78]
    ++ uleb rip
    ++ uleb (cieAugData personality).length
    ++ cieAugData personality

/-- Modelled from the spec: the bytes a `begin_cie`/`end_cie` pair leaves in
the buffer.  `begin_cie` writes a length placeholder and the body;
`end_cie` backpatches the 4-byte length with the body size. -/
def writeCIE (rip : Nat) (personality : Option Nat) : List Nat :=
  leBytes 4 (cieBody rip personality).length ++ cieBody rip personality

/-- Fields recovered by parsing a CIE record. -/
structure CIEFields where
  len : Nat
  cieId : Nat
  version : Nat
  augString : List Nat
  codeAlign : Nat
  dataAlign : Int
  returnReg : Nat
  augLen : Nat
  augData : List Nat
  trailing : List Nat
deriving DecidableEq, Repr

/-- Split a byte list at its first NUL: the bytes before it and the bytes
after it. -/
def takeUntilNul : List Nat → Option (List Nat × List Nat)
  | [] => none
  | b :: rest =>
    if b = 0 then some ([], rest)
    else
      match takeUntilNul rest with
      | some (s, r) => some (b :: s, r)
      | none => none

/-- Parse a CIE record laid out as in the LSB eh_frame description: 4-byte
length, 4-byte CIE id, version byte, NUL-terminated augmentation string,
ULEB code alignment, SLEB data alignment, ULEB return-address register,
ULEB augmentation data length, then the augmentation data; `trailing` is
whatever follows the record. -/
def parseCIE (bytes : List Nat) : Option CIEFields :=
  if bytes.length < 8 then none
  else
    match bytes.drop 8 with
    | [] => none
    | v :: rest =>
      match takeUntilNul rest with
      | some (aug, rest) =>
        (match ulebDecode rest with
         | some (ca, rest) =>
           (match slebDecode rest with
            | some (da, rest) =>
              (match ulebDecode rest with
               | some (ra, rest) =>
                 (match ulebDecode rest with
                  | some (al, rest) =>
                    some { len := leVal (bytes.take 4)
                           cieId := leVal ((bytes.drop 4).take 4)
                           version := v
                           augString := aug
                           codeAlign := ca
                           dataAlign := da
                           returnReg := ra
                           augLen := al
                           augData := rest.take al
                           trailing := rest.drop al }
                  | none => none)
               | none => none)
            | none => none)
         | none => none)
      | none => none

/-! ## Theorems -/

/-- C2: for every typed-value address passed to the shared local-release
routine: if the value's refcount is greater than 1, the routine decrements
the refcount and returns (no destructor, no syncpoint); if the refcount is
exactly 1, it invokes the type-specific destructor and records a syncpoint
for debuggers/unwinders; if the value is not refcounted (static, refcount
below 1), it changes nothing and returns. -/
theorem decRefHelper_spec (tv : TypedValue) :
    (1 < tv.rc → decRefHelper tv =
      { rcAfter := tv.rc - 1, destructorOf := none,
        syncpointRecorded := false }) ∧
    (tv.rc = 1 → decRefHelper tv =
      { rcAfter := tv.rc, destructorOf := some tv.ty,
        syncpointRecorded := true }) ∧
    (tv.rc < 1 → decRefHelper tv =
      { rcAfter := tv.rc, destructorOf := none,
        syncpointRecorded := false }) := by
  unfold decRefHelper
  refine ⟨fun h => ?_, fun h => ?_, fun h => ?_⟩
  · rw [if_pos (by omega), if_pos (by omega)]
  · rw [if_pos (by omega), if_neg (by omega)]
  · rw [if_neg (by omega)]

/-- Witness for C2: the three branches of the release routine evaluated at
refcounts 5, 1 and -128 (a static value). -/
theorem decRefHelper_spec_witness :
    decRefHelper ⟨9, 5⟩ =
      { rcAfter := 4, destructorOf := none, syncpointRecorded := false } ∧
    decRefHelper ⟨9, 1⟩ =
      { rcAfter := 1, destructorOf := some 9, syncpointRecorded := true } ∧
    decRefHelper ⟨9, -128⟩ =
      { rcAfter := -128, destructorOf := none, syncpointRecorded := false } :=
  ⟨(decRefHelper_spec ⟨9, 5⟩).1 (by decide),
   (decRefHelper_spec ⟨9, 1⟩).2.1 rfl,
   (decRefHelper_spec ⟨9, -128⟩).2.2 (by decide)⟩

/-- C10: on the PPC64 variant, the free function `ppc64::isSmashable`
returns `false` normally for every frontier address, byte count and offset;
it never aborts and never reports a position smashable. -/
theorem isSmashable_always_false (frontier nBytes offset : Nat) :
    isSmashable frontier nBytes offset = CallResult.ok false := rfl

/-- C4 counterexample: the claim asserts that the smashable-site query
operations of the PPC64 variant abort when invoked; but the free function
`ppc64::isSmashable` (back-end-ppc64.cpp lines 207-209), invoked at a
concrete frontier, returns the value `false` normally instead of
aborting. -/
theorem isSmashable_returns_instead_of_aborting :
    isSmashable 256 8 0 = CallResult.ok false ∧
    isSmashable 256 8 0 ≠ (CallResult.abort : CallResult Bool) := by
  decide

/-- C4 (amended): every unimplemented operation of the PPC64 back end — the
ABI and register queries, cache-line size, prologue/guard operations,
service-request emission, the smash and emitSmashable operations, and the
member smashable-site queries (target/condition read-backs and
`do_isSmashable`), as well as the free `prepareForSmashImpl`, `smashJmp`
and `smashCall` — aborts the process immediately when invoked; the one
exception is the free smashable-site query `ppc64::isSmashable`, which is
implemented to return `false` normally for every input. -/
theorem backEnd_unimplemented_ops_abort :
    BackEnd.abi = CallResult.abort ∧
    BackEnd.cacheLineSize = CallResult.abort ∧
    BackEnd.rSp = CallResult.abort ∧
    BackEnd.rVmSp = CallResult.abort ∧
    BackEnd.rVmFp = CallResult.abort ∧
    BackEnd.rVmTl = CallResult.abort ∧
    (∀ a b c d e f, BackEnd.emitServiceReqWork a b c d e f =
      CallResult.abort) ∧
    BackEnd.reusableStubSize = CallResult.abort ∧
    (∀ a b c, BackEnd.emitInterpReq a b c = CallResult.abort) ∧
    (∀ a b, BackEnd.funcPrologueHasGuard a b = CallResult.abort) ∧
    (∀ a b, BackEnd.funcPrologueToGuard a b = CallResult.abort) ∧
    (∀ a b c d, BackEnd.emitFuncPrologue a b c d = CallResult.abort) ∧
    (∀ a b, BackEnd.emitCallArrayPrologue a b = CallResult.abort) ∧
    (∀ a b, BackEnd.funcPrologueSmashGuard a b = CallResult.abort) ∧
    (∀ a b, BackEnd.smashJmp a b = CallResult.abort) ∧
    (∀ a b, BackEnd.smashCall a b = CallResult.abort) ∧
    (∀ a b, BackEnd.smashJcc a b = CallResult.abort) ∧
    (∀ a b c, BackEnd.emitSmashableJump a b c = CallResult.abort) ∧
    (∀ a b, BackEnd.emitSmashableCall a b = CallResult.abort) ∧
    (∀ a, BackEnd.smashableCallFromReturn a = CallResult.abort) ∧
    (∀ a, BackEnd.jmpTarget a = CallResult.abort) ∧
    (∀ a, BackEnd.jccTarget a = CallResult.abort) ∧
    (∀ a, BackEnd.jccCondCode a = CallResult.abort) ∧
    (∀ a, BackEnd.callTarget a = CallResult.abort) ∧
    (∀ a b c, BackEnd.do_isSmashable a b c = CallResult.abort) ∧
    (∀ a b, BackEnd.do_moveToAlign a b = CallResult.abort) ∧
    (∀ a b c, BackEnd.do_prepareForSmash a b c = CallResult.abort) ∧
    (∀ a b c, prepareForSmashImpl a b c = CallResult.abort) ∧
    (∀ a b, smashJmpFree a b = CallResult.abort) ∧
    (∀ a b, smashCallFree a b = CallResult.abort) ∧
    (∀ a b c, isSmashable a b c = CallResult.ok false) :=
  ⟨rfl, rfl, rfl, rfl, rfl, rfl,
   fun _ _ _ _ _ _ => rfl, rfl,
   fun _ _ _ => rfl, fun _ _ => rfl, fun _ _ => rfl, fun _ _ _ _ => rfl,
   fun _ _ => rfl, fun _ _ => rfl, fun _ _ => rfl, fun _ _ => rfl,
   fun _ _ => rfl, fun _ _ _ => rfl, fun _ _ => rfl, fun _ => rfl,
   fun _ => rfl, fun _ => rfl, fun _ => rfl, fun _ => rfl,
   fun _ _ _ => rfl, fun _ _ => rfl, fun _ _ _ => rfl, fun _ _ _ => rfl,
   fun _ _ => rfl, fun _ _ => rfl, fun _ _ _ => rfl⟩

/-- C9 counterexample: the claim asserts the emitted size of the
free-locals helpers is always checked against the four-cache-line budget
and that emission never completes beyond it; but the assertion is compiled
only under `PPC64_PERFORMANCE`, and even there it is short-circuited by
`Stats::enabled()`.  With a 64-byte cache line and 1000 emitted bytes
(beyond the 256-byte budget), emission completes both in a build without
`PPC64_PERFORMANCE` and in one with stats enabled. -/
theorem freeLocalsSizeCheck_not_always_enforced :
    freeLocalsSizeCheckPasses false false 1000 64 = true ∧
    freeLocalsSizeCheckPasses true true 1000 64 = true ∧
    ¬(1000 ≤ 4 * 64) := by
  decide

/-- C9 (amended): in a build defining `PPC64_PERFORMANCE` and with stats
collection disabled, the total emitted size of the free-locals helpers
(from the shared release routine to the frontier) is checked by a fatal
assertion against four cache lines: emission completes only when the size
is within that budget. -/
theorem freeLocalsSizeCheck_enforced_perf_build (size cl : Nat)
    (h : freeLocalsSizeCheckPasses true false size cl = true) :
    size ≤ 4 * cl := by
  unfold freeLocalsSizeCheckPasses at h
  simpa using h

/-- Witness for C9 (amended): a 200-byte stub with a 64-byte cache line
passes the check, and the theorem yields `200 ≤ 256`. -/
theorem freeLocalsSizeCheck_enforced_perf_build_witness :
    freeLocalsSizeCheckPasses true false 200 64 = true ∧ 200 ≤ 4 * 64 :=
  ⟨by decide, freeLocalsSizeCheck_enforced_perf_build 200 64 (by decide)⟩

/-- C1: for every invocation of the end-catch stub: if the thread-local
debugger-return offset is nonzero, the stub restores the saved stack
pointer into rvmsp, clears the flag, and exits through the
post-debugger-return service request without calling `tc_unwind_resume`;
otherwise it calls `tc_unwind_resume` exactly once with the current frame
pointer, installs the corrected frame pointer, and branches solely on
whether the returned catch-trace address is null (null: exit through
`_Unwind_Resume` with the stored exception; non-null: jump to the catch
trace).  In every case exactly one of the two host calls happens. -/
theorem endCatchHelper_spec (resume : Int → Int × Int) (s : EndCatchState) :
    (s.udrspo ≠ 0 →
      endCatchHelper resume s =
        { tcUnwindResumeArgs := []
          rvmsp := s.udrspo
          rvmfp := s.rvmfp
          udrspo := 0
          regStateSetClean := false
          exit := EndCatchExit.serviceReqPostDebuggerRet }) ∧
    (s.udrspo = 0 →
      (endCatchHelper resume s).tcUnwindResumeArgs = [s.rvmfp] ∧
      (endCatchHelper resume s).rvmfp = (resume s.rvmfp).2 ∧
      (endCatchHelper resume s).exit ≠
        EndCatchExit.serviceReqPostDebuggerRet ∧
      ((resume s.rvmfp).1 = 0 →
        (endCatchHelper resume s).exit =
          EndCatchExit.nativeUnwindResume s.unwinderExn) ∧
      ((resume s.rvmfp).1 ≠ 0 →
        (endCatchHelper resume s).exit =
          EndCatchExit.jumpToCatchTrace (resume s.rvmfp).1)) ∧
    endCatchHostCallCount (endCatchHelper resume s) = 1 := by
  unfold endCatchHelper endCatchHostCallCount
  by_cases h : s.udrspo = 0
  · simp only [h, ne_eq, not_true_eq_false, if_false, ite_not]
    by_cases h0 : (resume s.rvmfp).1 = 0
    · simp [h0]
    · simp [h0]
  · simp [h]

/-- Witness for C1: the stub evaluated on a debugger-return state, on a
normal state whose resume call returns a null catch trace, and on one whose
resume call returns catch trace 123. -/
theorem endCatchHelper_spec_witness :
    endCatchHelper (fun fp => (0, fp + 1)) ⟨5, 7, 3, 99⟩ =
      { tcUnwindResumeArgs := []
        rvmsp := 5
        rvmfp := 7
        udrspo := 0
        regStateSetClean := false
        exit := EndCatchExit.serviceReqPostDebuggerRet } ∧
    (endCatchHelper (fun fp => (0, fp + 1)) ⟨0, 7, 3, 99⟩).exit =
      EndCatchExit.nativeUnwindResume 99 ∧
    (endCatchHelper (fun fp => (123, fp + 1)) ⟨0, 7, 3, 99⟩).exit =
      EndCatchExit.jumpToCatchTrace 123 :=
  ⟨(endCatchHelper_spec (fun fp => (0, fp + 1)) ⟨5, 7, 3, 99⟩).1 (by decide),
   ((endCatchHelper_spec (fun fp => (0, fp + 1)) ⟨0, 7, 3, 99⟩).2.1
      rfl).2.2.2.1 rfl,
   ((endCatchHelper_spec (fun fp => (123, fp + 1)) ⟨0, 7, 3, 99⟩).2.1
      rfl).2.2.2.2 (by decide)⟩

/-- C5 (failing input exhibited): the function-enter trampoline, entered
with stack pointer 1000, link register 7777, argument registers (1, 2) and
zeroed memory, calls the hook exactly once with (1, 2); but on both outcome
paths the emitted epilogue `ld rsp, 0(rsp)` followed by `addi rsp, rsp, 80`
first reloads the saved stack pointer (1000) from the back chain and then
adds the frame size again, leaving the final stack pointer at 1080 instead
of restoring 1000; and on the intercept path the continuation is loaded
from address 1096 (which holds 0) instead of the slot 1016 where the saved
return address 7777 was stored. -/
theorem functionEnterHelper_stack_bug :
    (functionEnterHelper (fun _ _ => 0)
      ⟨1000, 7777, 0, 1, 2, fun _ => 0⟩).hookCalls = [(1, 2)] ∧
    (functionEnterHelper (fun _ _ => 0)
      ⟨1000, 7777, 0, 1, 2, fun _ => 0⟩).rspFinal = 1080 ∧
    (functionEnterHelper (fun _ _ => 1)
      ⟨1000, 7777, 0, 1, 2, fun _ => 0⟩).rspFinal = 1080 ∧
    (functionEnterHelper (fun _ _ => 1)
      ⟨1000, 7777, 0, 1, 2, fun _ => 0⟩).jumpTarget = some 0 ∧
    (functionEnterHelper (fun _ _ => 1)
      ⟨1000, 7777, 0, 1, 2, fun _ => 0⟩).jumpTarget ≠ some 7777 := by
  refine ⟨?_, ?_, ?_, ?_, ?_⟩ <;>
    simp [functionEnterHelper, memUpd]

/-- Rewriting a recorded address twice under a well-formed relocation
record changes it no further: the first rewrite moves it out of the source
range (or leaves it alone), so the second finds nothing to shift. -/
theorem adjustedAddress_idem (rel : RelocationRecord)
    (h : rel.WellFormed) (a : Nat) :
    adjustedAddress rel (adjustedAddress rel a) = adjustedAddress rel a := by
  unfold RelocationRecord.WellFormed RelocationRecord.destEnd at h
  unfold adjustedAddress
  split_ifs <;> omega

/-- C7: relocation is idempotent.  For every code region (its recorded
fixup addresses) and every well-formed relocation record (one whose
destination range is disjoint from its source range, i.e. the record
describes an actual move), applying `ppc64::relocate` a second time to the
already-relocated region changes nothing: no recorded address is shifted
again and the region is identical to the result of the first
application. -/
theorem relocate_idempotent (rel : RelocationRecord) (region : List Nat)
    (h : rel.WellFormed) :
    Ppc64.relocate rel (Ppc64.relocate rel region) =
      Ppc64.relocate rel region := by
  unfold Ppc64.relocate
  rw [List.map_map]
  induction region with
  | nil => rfl
  | cons a rest ih =>
    simp only [List.map_cons, List.cons.injEq]
    exact ⟨adjustedAddress_idem rel h a, ih⟩

/-- Witness for C7: moving the 8-byte range starting at 100 to 200 and
re-applying the record to the already-relocated fixup list [200, 204, 50]
is a no-op. -/
theorem relocate_idempotent_witness :
    Ppc64.relocate ⟨100, 108, 200⟩
        (Ppc64.relocate ⟨100, 108, 200⟩ [100, 104, 50]) =
      Ppc64.relocate ⟨100, 108, 200⟩ [100, 104, 50] :=
  relocate_idempotent ⟨100, 108, 200⟩ [100, 104, 50] (Or.inl (by decide))

/-- Length of the little-endian byte decomposition. -/
theorem leBytes_length (w n : Nat) : (leBytes w n).length = w := by
  induction w generalizing n with
  | zero => rfl
  | succ w ih => simp [leBytes, ih]

/-- Value of the little-endian byte decomposition: decomposing `n` into `w`
bytes and re-reading them yields `n` modulo `256 ^ w`. -/
theorem leVal_leBytes (w n : Nat) : leVal (leBytes w n) = n % 256 ^ w := by
  induction w generalizing n with
  | zero => simp [leBytes, leVal, Nat.mod_one]
  | succ w ih =>
    have hpow : (256 : Nat) ^ (w + 1) = 256 * 256 ^ w := by ring
    have h1 : n % (256 * 256 ^ w) % 256 = n % 256 :=
      Nat.mod_mod_of_dvd n ⟨256 ^ w, rfl⟩
    have h2 : n % (256 * 256 ^ w) / 256 = n / 256 % 256 ^ w :=
      Nat.mod_mul_right_div_self n 256 (256 ^ w)
    have h3 := Nat.div_add_mod (n % (256 * 256 ^ w)) 256
    simp only [leBytes, leVal, ih, hpow]
    omega

/-- Smashing a well-encoded site is the same as emitting it afresh with the
new destination: only the operand field changes. -/
theorem smashSite_emit (op : List Nat) (x d : Nat) :
    smashSite (emitSmashableSite op x) d = emitSmashableSite op d := by
  unfold smashSite emitSmashableSite
  have hlen : (op ++ leBytes 8 x).length = op.length + 8 := by
    simp [leBytes_length]
  rw [hlen]
  simp [List.take_left']

/-- Folding a sequence of smashes over a well-encoded site yields the site
re-encoded with the last destination of the sequence (or the original
destination when the sequence is empty). -/
theorem foldl_smashSite (op : List Nat) (ds : List Nat) (x : Nat) :
    ds.foldl smashSite (emitSmashableSite op x) =
      emitSmashableSite op (ds.getLastD x) := by
  induction ds generalizing x with
  | nil => rfl
  | cons d rest ih =>
    simp only [List.foldl_cons, smashSite_emit, ih, List.getLastD_cons]

/-- Reading the target back from a well-encoded site recovers the encoded
destination modulo `2 ^ 64`. -/
theorem siteTarget_emit (op : List Nat) (d : Nat) :
    siteTarget op.length (emitSmashableSite op d) = d % 2 ^ 64 := by
  unfold siteTarget emitSmashableSite
  rw [List.drop_left, leVal_leBytes]
  norm_num

/-- On a nonempty list, `getLastD` agrees with `getLast`. -/
theorem getLastD_eq_getLast (l : List Nat) (x : Nat) (h : l ≠ []) :
    l.getLastD x = l.getLast h := by
  induction l generalizing x with
  | nil => exact absurd rfl h
  | cons d rest ih =>
    cases rest with
    | nil => rfl
    | cons e rest2 =>
      show (e :: rest2).getLastD d = _
      exact (ih d (by simp)).trans (List.getLast_cons (by simp)).symm

/-- A freshly emitted site is a valid smashable encoding. -/
theorem validSmashableSite_emit (op : List Nat) (d : Nat) :
    ValidSmashableSite op (emitSmashableSite op d) := by
  unfold ValidSmashableSite emitSmashableSite
  constructor
  · simp [List.take_left']
  · simp [leBytes_length]

/-- Running the unrolled code emitted for entries `i` down to `0` before a
trailing code block executes `i + 1` sequential single-local releases on
consecutive slots and then continues into the trailing block with the local
pointer advanced `i` slots. -/
theorem execFL_unrolled (th : Int) (i : Nat) (tail : List FLInstr)
    (p : Nat) (st : FLState) :
    execFL th (unrolledCode i ++ tail) (p, st) =
      execFL th tail (p + tvSize * i, seqRelease th (i + 1) p st) := by
  induction i generalizing p st with
  | zero => simp [unrolledCode, execFL, seqRelease]
  | succ i ih =>
    simp only [unrolledCode, List.cons_append, execFL, List.append_eq]
    rw [ih]
    have harith : p + tvSize + tvSize * i = p + tvSize * (i + 1) := by ring
    rw [harith]
    rfl

/-- Every shorter unrolled entry is a suffix of a longer one: the emission
loop writes the entries back to back, each falling through into the
next. -/
theorem unrolledCode_isSuffix (j K : Nat) (h : j ≤ K) :
    (unrolledCode j).IsSuffix (unrolledCode K) := by
  induction K with
  | zero =>
    have hj : j = 0 := by omega
    rw [hj]
  | succ K ih =>
    rcases Nat.eq_or_lt_of_le h with he | hlt
    · rw [he]
    · have h2 : j ≤ K := by omega
      exact (ih h2).trans
        ((List.suffix_cons FLInstr.advance (unrolledCode K)).trans
          (List.suffix_cons FLInstr.decref
            (FLInstr.advance :: unrolledCode K)))

/-- A suffix relation is preserved by appending the same block on the
right. -/
theorem isSuffix_append_right {l₁ l₂ t : List FLInstr}
    (h : l₁.IsSuffix l₂) : (l₁ ++ t).IsSuffix (l₂ ++ t) := by
  obtain ⟨s, hs⟩ := h
  exact ⟨s, by rw [← List.append_assoc, hs]⟩

/-- The unrolled entries contain no `ret` of their own. -/
theorem unrolledCode_count_ret (i : Nat) :
    (unrolledCode i).count FLInstr.ret = 0 := by
  induction i with
  | zero => rfl
  | succ i ih => simp [unrolledCode, List.count_cons, ih]

/-- The emitted stub region contains exactly one `ret`: the shared one at
the end. -/
theorem unrolledProgram_count_ret (K : Nat) :
    (unrolledProgram K).count FLInstr.ret = 1 := by
  simp [unrolledProgram, List.count_append, unrolledCode_count_ret]

/-- C3: for every `k = 1..K` and every frame state, invoking the `k`-th
unrolled free-locals entry point (the suffix of the emitted region starting
at `unrolledCode (k - 1)`) produces refcount/destructor side effects
identical to invoking the single-local release routine `k` times in
sequence on `k` consecutive local slots; the entry is a suffix of the one
emitted region, which contains exactly one `ret`, and both every unrolled
entry and the looping entry halt at that single shared `ret`. -/
theorem freeLocalsHelpers_spec (th : Int) (K k n : Nat) (p : Nat)
    (st : FLState) (hk1 : 1 ≤ k) (hkK : k ≤ K) :
    (execFL th (unrolledCode (k - 1) ++ [FLInstr.ret]) (p, st)).1.2 =
      seqRelease th k p st ∧
    (execFL th (unrolledCode (k - 1) ++ [FLInstr.ret]) (p, st)).2 =
      [FLInstr.ret] ∧
    (unrolledCode (k - 1) ++ [FLInstr.ret]).IsSuffix (unrolledProgram K) ∧
    (unrolledProgram K).count FLInstr.ret = 1 ∧
    (freeManyLocalsEntry th K n (p, st)).2 = [FLInstr.ret] := by
  obtain ⟨k', rfl⟩ : ∃ k', k = k' + 1 := ⟨k - 1, by omega⟩
  simp only [Nat.add_sub_cancel]
  have hrun := execFL_unrolled th k' [FLInstr.ret] p st
  refine ⟨?_, ?_, ?_, unrolledProgram_count_ret K, ?_⟩
  · rw [hrun]; rfl
  · rw [hrun]; rfl
  · exact isSuffix_append_right (unrolledCode_isSuffix k' (K - 1) (by omega))
  · unfold freeManyLocalsEntry unrolledProgram
    obtain ⟨p', st'⟩ := loopRelease th n (p, st)
    rw [execFL_unrolled]
    rfl

/-- Witness for C3: the second unrolled entry of a three-entry layout, run
on a zeroed frame, matches two sequential single-local releases and halts
at the one shared `ret`; so does the looping entry after one iteration. -/
theorem freeLocalsHelpers_spec_witness :
    (execFL 0 (unrolledCode (2 - 1) ++ [FLInstr.ret])
        (0, ⟨fun _ => ⟨0, 0⟩, []⟩)).1.2 =
      seqRelease 0 2 0 ⟨fun _ => ⟨0, 0⟩, []⟩ ∧
    (execFL 0 (unrolledCode (2 - 1) ++ [FLInstr.ret])
        (0, ⟨fun _ => ⟨0, 0⟩, []⟩)).2 = [FLInstr.ret] ∧
    (unrolledCode (2 - 1) ++ [FLInstr.ret]).IsSuffix (unrolledProgram 3) ∧
    (unrolledProgram 3).count FLInstr.ret = 1 ∧
    (freeManyLocalsEntry 0 3 1 (0, ⟨fun _ => ⟨0, 0⟩, []⟩)).2 =
      [FLInstr.ret] :=
  freeLocalsHelpers_spec 0 3 2 1 0 ⟨fun _ => ⟨0, 0⟩, []⟩ (by decide)
    (by decide)

/-- C8: for every smashable jump/conditional-jump/call site (opcode bytes
`op`, which for the conditional form include the condition code, followed
by an 8-byte target operand), after any nonempty sequence `ds` of smash
operations the site still decodes as a valid instruction of unchanged
length with the opcode bytes untouched, and the target read back equals the
destination written by the most recent smash operation. -/
theorem smashableSite_spec (op : List Nat) (t : Nat) (ds : List Nat)
    (hne : ds ≠ []) (hlt : ∀ d ∈ ds, d < 2 ^ 64) :
    (ds.foldl smashSite (emitSmashableSite op t)).length =
      (emitSmashableSite op t).length ∧
    ValidSmashableSite op (ds.foldl smashSite (emitSmashableSite op t)) ∧
    siteTarget op.length (ds.foldl smashSite (emitSmashableSite op t)) =
      ds.getLast hne := by
  rw [foldl_smashSite]
  have hlast : ds.getLastD t = ds.getLast hne := getLastD_eq_getLast ds t hne
  have hmem : ds.getLast hne ∈ ds := List.getLast_mem hne
  refine ⟨?_, ?_, ?_⟩
  · unfold emitSmashableSite
    simp [leBytes_length]
  · rw [hlast]; exact validSmashableSite_emit op _
  · rw [hlast, siteTarget_emit, Nat.mod_eq_of_lt (hlt _ hmem)]

/-- Witness for C8: a four-byte opcode site first emitted with target 500,
then smashed to 600 and to 700, keeps its 12-byte length and reads back
700. -/
theorem smashableSite_spec_witness :
    ([600, 700] : List Nat) ≠ [] ∧
    (([600, 700] : List Nat).foldl smashSite
        (emitSmashableSite [1, 2, 3, 4] 500)).length =
      (emitSmashableSite [1, 2, 3, 4] 500).length ∧
    ValidSmashableSite [1, 2, 3, 4]
      (([600, 700] : List Nat).foldl smashSite
        (emitSmashableSite [1, 2, 3, 4] 500)) ∧
    siteTarget 4 (([600, 700] : List Nat).foldl smashSite
        (emitSmashableSite [1, 2, 3, 4] 500)) = 700 :=
  ⟨by decide,
   smashableSite_spec [1, 2, 3, 4] 500 [600, 700] (by decide)
     (by decide)⟩

/-- ULEB128 of a value below 128 is the single byte holding that value. -/
theorem uleb_lt_128 {n : Nat} (h : n < 128) : uleb n = [n] := by
  unfold uleb
  rw [dif_pos h]

/-- C6: a `begin_cie`/`end_cie` pair writes exactly one CIE (the length
field covers the whole rest of the buffer, with nothing trailing) whose
parsed fields are: CIE id 0, version 1, code-alignment factor 1,
data-alignment factor -8, return-address register the supplied number, and
augmentation string "zPR" (bytes [0x7A, 0x50, 0x52]) when a personality
routine is supplied and "zR" (bytes [0x7A, 0x52]) when it is not; every
pointer encoding in the augmentation data is `DW_EH_PE_absptr` (the first
and last augmentation-data encoding bytes, with the absolute personality
pointer in between when present). -/
theorem writeCIE_fields (rip : Nat) (hrip : rip < 128)
    (personality : Option Nat) :
    parseCIE (writeCIE rip personality) = some
      { len := (cieBody rip personality).length
        cieId := 0
        version := 1
        augString := if personality.isSome then [0x7A, 0x50, 0x52]
                     else [0x7A, 0x52]
        codeAlign := 1
        dataAlign := -8
        returnReg := rip
        augLen := (cieAugData personality).length
        augData := cieAugData personality
        trailing := [] } ∧
    (writeCIE rip personality).length =
      (cieBody rip personality).length + 4 ∧
    (cieAugData personality).head? = some dwEhPeAbsptr ∧
    (cieAugData personality).getLast? = some dwEhPeAbsptr := by
  cases personality with
  | none =>
    refine ⟨?_, ?_, rfl, rfl⟩
    · simp [writeCIE, cieBody, cieAugData, augStringZR, dwEhPeAbsptr,
            leBytes, parseCIE, takeUntilNul, ulebDecode, slebDecode, leVal,
            uleb_lt_128, hrip]
    · simp [writeCIE, cieBody, cieAugData, augStringZR, leBytes,
            uleb_lt_128, hrip]
  | some p =>
    refine ⟨?_, ?_, rfl, ?_⟩
    · simp [writeCIE, cieBody, cieAugData, augStringZPR, dwEhPeAbsptr,
            leBytes_length, parseCIE, takeUntilNul, ulebDecode, slebDecode,
            leVal, leBytes, uleb_lt_128, hrip]
    · simp [writeCIE, cieBody, cieAugData, augStringZPR, leBytes_length,
            leBytes, uleb_lt_128, hrip]
    · show ((dwEhPeAbsptr :: leBytes 8 p) ++ [dwEhPeAbsptr]).getLast? =
        some dwEhPeAbsptr
      exact List.getLast?_concat _

/-- Witness for C6: the CIE written for return register 65 (the PPC64 link
register) with personality routine at 0x1234. -/
theorem writeCIE_fields_witness :
    parseCIE (writeCIE 65 (some 0x1234)) = some
      { len := (cieBody 65 (some 0x1234)).length
        cieId := 0
        version := 1
        augString := [0x7A, 0x50, 0x52]
        codeAlign := 1
        dataAlign := -8
        returnReg := 65
        augLen := (cieAugData (some 0x1234)).length
        augData := cieAugData (some 0x1234)
        trailing := [] } ∧
    (writeCIE 65 (some 0x1234)).length =
      (cieBody 65 (some 0x1234)).length + 4 ∧
    (cieAugData (some 0x1234)).head? = some dwEhPeAbsptr ∧
    (cieAugData (some 0x1234)).getLast? = some dwEhPeAbsptr :=
  writeCIE_fields 65 (by decide) (some 0x1234)

end HhvmJit
